import Mathlib

/-!
Shallow embedding of `src/coco_to_yolo_extractor.py` (COCO dataset extractor).

Python floats and ints are modelled as rationals (`ℚ`) where arithmetic on
them occurs; identifiers are `Int`.  A Python `set` is modelled as a
duplicate-free list in first-insertion order (`setInsert` never re-inserts an
existing element, so the list length equals the Python `len` of the set);
claims about sets are stated through membership and length, which do not
depend on the order chosen.  `None` results of `next(..., None)` become
`Option`.  Loops with `break` become structural recursion.  Every definition
is translated from the source file.
-/

namespace Coco

/-- A COCO category record `{id, name, supercategory}` (data model of the
annotation JSON consumed by the script). -/
structure Category where
  id : Int
  name : String
  supercategory : String
deriving DecidableEq, Repr

/-- A COCO image record `{id, file_name, width, height}`. Width and height are
modelled as rationals because the script divides by them. -/
structure Image where
  id : Int
  file_name : String
  width : ℚ
  height : ℚ
deriving DecidableEq, Repr

/-- A COCO bounding box `[x, y, w, h]` in absolute pixel units. -/
structure BBox where
  x : ℚ
  y : ℚ
  w : ℚ
  h : ℚ
deriving DecidableEq, Repr

/-- One COCO annotation record: `{image_id, category_id, bbox}`. -/
structure Ann where
  image_id : Int
  category_id : Int
  bbox : BBox
deriving DecidableEq, Repr

/-- One split's loaded annotation data: the `images`, `categories` and
`annotations` lists of the JSON file (`coco_data` in the source). -/
structure CocoData where
  images : List Image
  categories : List Category
  anns : List Ann
deriving DecidableEq, Repr

/-- Python `set.add`: insert an element unless already present (modelled in
first-insertion order). -/
def setInsert {α : Type} [DecidableEq α] (x : α) (l : List α) : List α :=
  if x ∈ l then l else l ++ [x]

/-- Python `set(xs)` built from a list. -/
def pySetOfList {α : Type} [DecidableEq α] (xs : List α) : List α :=
  xs.foldl (fun s x => setInsert x s) []

/-- `next((cat['name'] for cat in coco_data.get('categories', []) if
cat['id'] == category_id), None)` — linear search for the category name of a
category id; `none` models Python's `None` default. -/
def categoryName (d : CocoData) (cid : Int) : Option String :=
  (d.categories.find? (fun c => c.id == cid)).map Category.name

/-- The membership test `category_name in self.target_classes` applied to the
result of `categoryName`; in Python `None in <list of str>` is `False`. -/
def matchesTarget (d : CocoData) (tc : List String) (cid : Int) : Bool :=
  match categoryName d cid with
  | some nm => tc.contains nm
  | none => false

/-- One YOLO output line `"<class_index> <xc> <yc> <w> <h>"`, modelled by its
numeric values (float formatting is not modelled). -/
structure YoloLine where
  cls : Nat
  x_center : ℚ
  y_center : ℚ
  width : ℚ
  height : ℚ
deriving DecidableEq, Repr

/-- The line body built inside `coco_to_yolo_format` for one matched
annotation with resolved category name `nm`:
`class index = target_classes.index(nm)` unless `create_single_class`, in
which case `0`; then `x_center = bbox[0] + bbox[2]/2`, `y_center = bbox[1] +
bbox[3]/2`, each value divided by the image width resp. height. -/
def yoloLineOf (tc : List String) (create_single_class : Bool) (img : Image)
    (a : Ann) (nm : String) : YoloLine :=
  { cls := if create_single_class then 0 else tc.indexOf nm
  , x_center := (a.bbox.x + a.bbox.w / 2) / img.width
  , y_center := (a.bbox.y + a.bbox.h / 2) / img.height
  , width := a.bbox.w / img.width
  , height := a.bbox.h / img.height }

/-- `coco_to_yolo_format(img_info, annotations, coco_data)`: for each
annotation, resolve the category name; if it is in `target_classes`, append a
YOLO line, otherwise contribute nothing. -/
def coco_to_yolo_format (tc : List String) (create_single_class : Bool)
    (img : Image) (lst : List Ann) (d : CocoData) : List YoloLine :=
  lst.filterMap (fun a =>
    match categoryName d a.category_id with
    | some nm =>
        if tc.contains nm then some (yoloLineOf tc create_single_class img a nm)
        else none
    | none => none)

/-- The annotation loop of `extract_images_id`: scan the annotation list,
inserting `ann['image_id']` whenever the resolved-name membership test equals
`extract_target_images` (`et`); when `et` is false, after each insertion break
as soon as `len(unique_images) > num_img_with_target_classes *
background_percentage`. -/
def extractIdsGo (d : CocoData) (tc : List String) (bp : ℚ) (et : Bool)
    (num : ℕ) : List Ann → List Int → List Int
  | [], s => s
  | a :: rest, s =>
    if matchesTarget d tc a.category_id = et then
      let s' := setInsert a.image_id s
      if et = false ∧ (num : ℚ) * bp < (s'.length : ℚ) then s'
      else extractIdsGo d tc bp et num rest s'
    else extractIdsGo d tc bp et num rest s

/-- `extract_images_id(coco_data, extract_target_images,
num_img_with_target_classes, extract_all)`: with `extract_all` return the set
of all image ids, otherwise run the annotation scan starting from the empty
set. -/
def extract_images_id (d : CocoData) (tc : List String) (bp : ℚ) (et : Bool)
    (num : ℕ) (extract_all : Bool) : List Int :=
  if extract_all then pySetOfList (d.images.map Image.id)
  else extractIdsGo d tc bp et num d.anns []

/-- The annotation loop of `extract_images_filename`: like `extractIdsGo` but
inserting the `file_name` of the matching image record when one exists (a
missing record is reported and skipped); the break test still runs. -/
def extractFnGo (d : CocoData) (tc : List String) (bp : ℚ) (et : Bool)
    (num : ℕ) : List Ann → List String → List String
  | [], s => s
  | a :: rest, s =>
    if matchesTarget d tc a.category_id = et then
      let s' := match d.images.find? (fun img => img.id == a.image_id) with
        | some img => setInsert img.file_name s
        | none => s
      if et = false ∧ (num : ℚ) * bp < (s'.length : ℚ) then s'
      else extractFnGo d tc bp et num rest s'
    else extractFnGo d tc bp et num rest s

/-- `extract_images_filename(...)`: with `extract_all` return the set of all
image file names, otherwise run the filename scan from the empty set. -/
def extract_images_filename (d : CocoData) (tc : List String) (bp : ℚ)
    (et : Bool) (num : ℕ) (extract_all : Bool) : List String :=
  if extract_all then pySetOfList (d.images.map Image.file_name)
  else extractFnGo d tc bp et num d.anns []

/-- The selection step of `process_dataset` for a train/valid split: if
`target_classes` is non-empty, take the target id set and — when
`background_percentage > 0` — the background id set seeded with the target
count; otherwise take all image ids (`extract_all=True`) and an empty
background set. -/
def selectSets (tc : List String) (bp : ℚ) (d : CocoData) :
    List Int × List Int :=
  if tc ≠ [] then
    let t := extract_images_id d tc bp true 0 false
    let b := if 0 < bp then extract_images_id d tc bp false t.length false
             else []
    (t, b)
  else (extract_images_id d tc bp true 0 true, [])

/-- `create_new_class(coco_data)`: if a category named `single_class_name`
exists, leave the data unchanged (its id is reused); otherwise append a new
category with id `max(cat['id'] ...) + 1` — `none` models the `ValueError`
Python's `max` raises on an empty category list. -/
def create_new_class (single_class_name : String) (d : CocoData) :
    Option CocoData :=
  match d.categories.find? (fun c => c.name == single_class_name) with
  | some _ => some d
  | none =>
    match (d.categories.map Category.id).max? with
    | none => none
    | some m =>
        some { d with categories :=
          d.categories ++ [⟨m + 1, single_class_name, single_class_name⟩] }

/-- `os.path.join` on separator-free components (POSIX separator). -/
def pathJoin (parts : List String) : String :=
  String.intercalate "/" parts

/-- The `images_record` accumulation of `convert_annotations`: for each id in
iteration order, look up its image record; when found, append the
output-relative path `<dataset_type>/images/<file_name>`; when missing, skip
the id. -/
def convertImagesRecord (d : CocoData) (dataset_type : String) :
    List Int → List String → List String
  | [], images_record => images_record
  | i :: rest, images_record =>
    match d.images.find? (fun img => img.id == i) with
    | some img =>
        convertImagesRecord d dataset_type rest
          (images_record ++ [pathJoin [dataset_type, "images", img.file_name]])
    | none => convertImagesRecord d dataset_type rest images_record

/-- The `images_record` accumulation of the test branch of `process_dataset`:
for each extracted filename, append `os.path.join(output_dir, 'test',
'images', filename)` (the destination path, `output_dir` included). -/
def testImagesRecord (output_dir : String) :
    List String → List String → List String
  | [], images_record => images_record
  | f :: rest, images_record =>
    testImagesRecord output_dir rest
      (images_record ++ [pathJoin [output_dir, "test", "images", f]])

/-- `'\n'.join(images_record)` — the split manifest written to
`<output_dir>/<split>.txt`. -/
def splitManifest (images_record : List String) : String :=
  String.intercalate "\n" images_record

/-- Outcome of selecting the test images: either the list of filenames to
copy, or the `UnboundLocalError` the interpreter raises when the loop reads a
variable that was never assigned. -/
inductive TestExtract where
  | ok (files : List String)
  | unboundLocalError
deriving DecidableEq

/-- The test-image selection of `process_dataset`'s test branch (the optional
`random.sample` cap is outside this model).  When `test_only_target_classes`
is set and the annotation file is absent, the source prints a message but
leaves `test_images_to_extract` unassigned, so the following `for` loop
raises `UnboundLocalError`; `coco_data = none` models the absent file and
`dirListing` models `os.listdir` on the test image directory. -/
def selectTestImages (test_only_target_classes : Bool) (tc : List String)
    (bp : ℚ) (coco_data : Option CocoData) (dirListing : List String) :
    TestExtract :=
  if test_only_target_classes then
    match coco_data with
    | some d => .ok (extract_images_filename d tc bp true 0 false)
    | none => .unboundLocalError
  else .ok dirListing

/-- The ids of a selection set that `convert_annotations` actually
materializes: those whose image record exists in the data. -/
def visitedIds (d : CocoData) (s : List Int) : List Int :=
  s.filter (fun i => (d.images.find? (fun img => img.id == i)).isSome)

/-- The target-image id set exactly as `process_dataset` requests it
(`extract_target_images=True`, no count, `extract_all=False`). -/
def targetSet (d : CocoData) (tc : List String) (bp : ℚ) : List Int :=
  extract_images_id d tc bp true 0 false

/-- The background-image id set exactly as `process_dataset` requests it
(`extract_target_images=False`, seeded with the target-set count). -/
def backgroundSet (d : CocoData) (tc : List String) (bp : ℚ) : List Int :=
  extract_images_id d tc bp false (targetSet d tc bp).length false

/-! Concrete data used to instantiate witnesses and counterexamples. -/

/-- A sample bounding box `[1, 2, 3, 4]`. -/
def exBB : BBox := ⟨1, 2, 3, 4⟩

/-- A sample 10×10 image with id 1. -/
def exImg : Image := ⟨1, "a.jpg", 10, 10⟩

/-- A "cat" annotation on image 1. -/
def exAnn1 : Ann := ⟨1, 1, exBB⟩

/-- A "dog" annotation on image 1. -/
def exAnn2 : Ann := ⟨1, 2, exBB⟩

/-- One image carrying both a "cat" and a "dog" annotation. -/
def exCatDog : CocoData :=
  { images := [exImg]
  , categories := [⟨1, "cat", "animal"⟩, ⟨2, "dog", "animal"⟩]
  , anns := [exAnn1, exAnn2] }

/-- One image carrying only a "cat" annotation. -/
def exCatOnly : CocoData :=
  { images := [exImg]
  , categories := [⟨1, "cat", "animal"⟩]
  , anns := [exAnn1] }

/-- Ten images, each with one "cat" annotation and nothing else. -/
def exTen : CocoData :=
  { images := [⟨1, "1", 10, 10⟩, ⟨2, "2", 10, 10⟩, ⟨3, "3", 10, 10⟩,
               ⟨4, "4", 10, 10⟩, ⟨5, "5", 10, 10⟩, ⟨6, "6", 10, 10⟩,
               ⟨7, "7", 10, 10⟩, ⟨8, "8", 10, 10⟩, ⟨9, "9", 10, 10⟩,
               ⟨10, "10", 10, 10⟩]
  , categories := [⟨1, "cat", "animal"⟩]
  , anns := [⟨1, 1, exBB⟩, ⟨2, 1, exBB⟩, ⟨3, 1, exBB⟩, ⟨4, 1, exBB⟩,
             ⟨5, 1, exBB⟩, ⟨6, 1, exBB⟩, ⟨7, 1, exBB⟩, ⟨8, 1, exBB⟩,
             ⟨9, 1, exBB⟩, ⟨10, 1, exBB⟩] }

/-- `exTen` plus a "dog" category and one "dog" annotation on image 11. -/
def exTenDog : CocoData :=
  { images := exTen.images
  , categories := exTen.categories ++ [⟨2, "dog", "animal"⟩]
  , anns := exTen.anns ++ [⟨11, 2, exBB⟩] }

/-! ## Helper lemmas -/

theorem mem_setInsert {α : Type} [DecidableEq α] (x y : α) (l : List α) :
    y ∈ setInsert x l ↔ y = x ∨ y ∈ l := by
  unfold setInsert
  by_cases h : x ∈ l
  · simp only [if_pos h]
    constructor
    · exact fun hy => Or.inr hy
    · rintro (rfl | hy)
      · exact h
      · exact hy
  · simp [if_neg h, List.mem_append, or_comm]

theorem setInsert_ne_nil {α : Type} [DecidableEq α] (x : α) (l : List α) :
    setInsert x l ≠ [] := by
  intro hcontra
  have : x ∈ setInsert x l := (mem_setInsert x x l).mpr (Or.inl rfl)
  rw [hcontra] at this
  exact absurd this (List.not_mem_nil x)

theorem length_setInsert_le {α : Type} [DecidableEq α] (x : α) (l : List α) :
    (setInsert x l).length ≤ l.length + 1 := by
  unfold setInsert
  by_cases h : x ∈ l <;> simp [h]

/-- Every member of the scan result is either an initial member or the image
id of some scanned annotation whose membership test equals the mode flag. -/
theorem mem_extractIdsGo (d : CocoData) (tc : List String) (bp : ℚ)
    (et : Bool) (num : ℕ) :
    ∀ (l : List Ann) (s : List Int) (i : Int),
      i ∈ extractIdsGo d tc bp et num l s →
      i ∈ s ∨ ∃ a ∈ l, a.image_id = i ∧ matchesTarget d tc a.category_id = et
  | [], s, i => fun hi => Or.inl hi
  | a :: rest, s, i => by
    intro hi
    unfold extractIdsGo at hi
    by_cases hm : matchesTarget d tc a.category_id = et
    · rw [if_pos hm] at hi
      by_cases hb : et = false ∧ (num : ℚ) * bp < ((setInsert a.image_id s).length : ℚ)
      · rw [if_pos hb] at hi
        rcases (mem_setInsert _ _ _).mp hi with rfl | hs
        · exact Or.inr ⟨a, List.mem_cons_self a rest, rfl, hm⟩
        · exact Or.inl hs
      · rw [if_neg hb] at hi
        rcases mem_extractIdsGo d tc bp et num rest (setInsert a.image_id s) i hi with hs | ⟨a', ha', rfl, hm'⟩
        · rcases (mem_setInsert _ _ _).mp hs with rfl | hs'
          · exact Or.inr ⟨a, List.mem_cons_self a rest, rfl, hm⟩
          · exact Or.inl hs'
        · exact Or.inr ⟨a', List.mem_cons_of_mem a ha', rfl, hm'⟩
    · rw [if_neg hm] at hi
      rcases mem_extractIdsGo d tc bp et num rest s i hi with hs | ⟨a', ha', rfl, hm'⟩
      · exact Or.inl hs
      · exact Or.inr ⟨a', List.mem_cons_of_mem a ha', rfl, hm'⟩

/-- The scan only grows its accumulator. -/
theorem subset_extractIdsGo (d : CocoData) (tc : List String) (bp : ℚ)
    (et : Bool) (num : ℕ) :
    ∀ (l : List Ann) (s : List Int), s ⊆ extractIdsGo d tc bp et num l s
  | [], s => fun _ hx => hx
  | a :: rest, s => by
    intro x hx
    unfold extractIdsGo
    by_cases hm : matchesTarget d tc a.category_id = et
    · rw [if_pos hm]
      have hx' : x ∈ setInsert a.image_id s := (mem_setInsert _ _ _).mpr (Or.inr hx)
      by_cases hb : et = false ∧ (num : ℚ) * bp < ((setInsert a.image_id s).length : ℚ)
      · rw [if_pos hb]; exact hx'
      · rw [if_neg hb]
        exact subset_extractIdsGo d tc bp et num rest (setInsert a.image_id s) hx'
    · rw [if_neg hm]
      exact subset_extractIdsGo d tc bp et num rest s hx

/-- If some scanned annotation passes the membership test, the scan result is
non-empty (even with the early break). -/
theorem extractIdsGo_ne_nil (d : CocoData) (tc : List String) (bp : ℚ)
    (et : Bool) (num : ℕ) :
    ∀ (l : List Ann) (s : List Int),
      (∃ a ∈ l, matchesTarget d tc a.category_id = et) →
      extractIdsGo d tc bp et num l s ≠ []
  | [], _, ⟨_, ha, _⟩ => absurd ha (List.not_mem_nil _)
  | a :: rest, s, ⟨w, hw, hwm⟩ => by
    unfold extractIdsGo
    by_cases hm : matchesTarget d tc a.category_id = et
    · rw [if_pos hm]
      by_cases hb : et = false ∧ (num : ℚ) * bp < ((setInsert a.image_id s).length : ℚ)
      · rw [if_pos hb]; exact setInsert_ne_nil _ _
      · rw [if_neg hb]
        have hmem : a.image_id ∈ setInsert a.image_id s :=
          (mem_setInsert _ _ _).mpr (Or.inl rfl)
        have := subset_extractIdsGo d tc bp et num rest (setInsert a.image_id s) hmem
        exact List.ne_nil_of_mem this
    · rw [if_neg hm]
      rcases List.mem_cons.mp hw with rfl | hw'
      · exact absurd hwm hm
      · exact extractIdsGo_ne_nil d tc bp et num rest s ⟨w, hw', hwm⟩

/-- Size invariant of the background scan: starting at or below the threshold
`num * bp`, after the early break the size exceeds it by at most one. -/
theorem extractIdsGo_length_le (d : CocoData) (tc : List String) (bp : ℚ)
    (num : ℕ) :
    ∀ (l : List Ann) (s : List Int), (s.length : ℚ) ≤ (num : ℚ) * bp →
      ((extractIdsGo d tc bp false num l s).length : ℚ) ≤ (num : ℚ) * bp + 1
  | [], s, hs => by
    unfold extractIdsGo
    exact le_trans hs (by linarith)
  | a :: rest, s, hs => by
    unfold extractIdsGo
    by_cases hm : matchesTarget d tc a.category_id = false
    · rw [if_pos hm]
      have hlen : ((setInsert a.image_id s).length : ℚ) ≤ (s.length : ℚ) + 1 := by
        exact_mod_cast length_setInsert_le a.image_id s
      by_cases hb : (false : Bool) = false ∧ (num : ℚ) * bp < ((setInsert a.image_id s).length : ℚ)
      · rw [if_pos hb]
        linarith
      · rw [if_neg hb]
        have hnb : ¬ ((num : ℚ) * bp < ((setInsert a.image_id s).length : ℚ)) := by
          intro hlt
          exact hb ⟨rfl, hlt⟩
        exact extractIdsGo_length_le d tc bp num rest (setInsert a.image_id s) (not_lt.mp hnb)
    · rw [if_neg hm]
      exact extractIdsGo_length_le d tc bp num rest s hs

/-! ## Claims -/

/-- Claim C1: for every annotation whose resolved category name is in
`target_classes`, the YOLO transcoder emits a line whose values are
`x_center = (bbox[0] + bbox[2]/2) / width`, `y_center = (bbox[1] +
bbox[3]/2) / height`, `width = bbox[2] / width`, `height = bbox[3] /
height`; multiplying the normalized values back by the image dimensions
reconstructs the original absolute bbox (exactly, over `ℚ`). -/
theorem c1_yolo_normalization_roundtrip (tc : List String) (single : Bool)
    (img : Image) (d : CocoData) (lst : List Ann) (a : Ann) (nm : String)
    (ha : a ∈ lst)
    (hnm : categoryName d a.category_id = some nm)
    (htc : tc.contains nm = true)
    (hW : img.width ≠ 0) (hH : img.height ≠ 0) :
    yoloLineOf tc single img a nm ∈ coco_to_yolo_format tc single img lst d ∧
    (yoloLineOf tc single img a nm).x_center = (a.bbox.x + a.bbox.w / 2) / img.width ∧
    (yoloLineOf tc single img a nm).y_center = (a.bbox.y + a.bbox.h / 2) / img.height ∧
    (yoloLineOf tc single img a nm).width = a.bbox.w / img.width ∧
    (yoloLineOf tc single img a nm).height = a.bbox.h / img.height ∧
    ((yoloLineOf tc single img a nm).x_center
      - (yoloLineOf tc single img a nm).width / 2) * img.width = a.bbox.x ∧
    ((yoloLineOf tc single img a nm).y_center
      - (yoloLineOf tc single img a nm).height / 2) * img.height = a.bbox.y ∧
    (yoloLineOf tc single img a nm).width * img.width = a.bbox.w ∧
    (yoloLineOf tc single img a nm).height * img.height = a.bbox.h := by
  refine ⟨?_, rfl, rfl, rfl, rfl, ?_, ?_, ?_, ?_⟩
  · unfold coco_to_yolo_format
    exact List.mem_filterMap.mpr ⟨a, ha, by rw [hnm]; simpa using htc⟩
  · show ((a.bbox.x + a.bbox.w / 2) / img.width - a.bbox.w / img.width / 2) * img.width = a.bbox.x
    field_simp
    ring
  · show ((a.bbox.y + a.bbox.h / 2) / img.height - a.bbox.h / img.height / 2) * img.height = a.bbox.y
    field_simp
    ring
  · show a.bbox.w / img.width * img.width = a.bbox.w
    field_simp
  · show a.bbox.h / img.height * img.height = a.bbox.h
    field_simp

/-- Witness for C1 at a concrete input: the "cat" annotation on the 10×10
image with bbox `[1, 2, 3, 4]`. -/
theorem c1_yolo_normalization_roundtrip_witness :
    yoloLineOf ["cat"] false exImg exAnn1 "cat"
      ∈ coco_to_yolo_format ["cat"] false exImg [exAnn1] exCatDog ∧
    (yoloLineOf ["cat"] false exImg exAnn1 "cat").x_center
      = (exAnn1.bbox.x + exAnn1.bbox.w / 2) / exImg.width ∧
    (yoloLineOf ["cat"] false exImg exAnn1 "cat").y_center
      = (exAnn1.bbox.y + exAnn1.bbox.h / 2) / exImg.height ∧
    (yoloLineOf ["cat"] false exImg exAnn1 "cat").width
      = exAnn1.bbox.w / exImg.width ∧
    (yoloLineOf ["cat"] false exImg exAnn1 "cat").height
      = exAnn1.bbox.h / exImg.height ∧
    ((yoloLineOf ["cat"] false exImg exAnn1 "cat").x_center
      - (yoloLineOf ["cat"] false exImg exAnn1 "cat").width / 2) * exImg.width
      = exAnn1.bbox.x ∧
    ((yoloLineOf ["cat"] false exImg exAnn1 "cat").y_center
      - (yoloLineOf ["cat"] false exImg exAnn1 "cat").height / 2) * exImg.height
      = exAnn1.bbox.y ∧
    (yoloLineOf ["cat"] false exImg exAnn1 "cat").width * exImg.width
      = exAnn1.bbox.w ∧
    (yoloLineOf ["cat"] false exImg exAnn1 "cat").height * exImg.height
      = exAnn1.bbox.h :=
  c1_yolo_normalization_roundtrip ["cat"] false exImg exCatDog [exAnn1] exAnn1 "cat"
    (by decide) (by decide) (by decide)
    (by norm_num [exImg]) (by norm_num [exImg])

/-- Dropping the annotations that fail the target-membership test does not
change the YOLO payload: non-target annotations contribute nothing. -/
theorem coco_to_yolo_format_filter (tc : List String) (single : Bool)
    (img : Image) (d : CocoData) :
    ∀ lst : List Ann,
      coco_to_yolo_format tc single img
          (lst.filter fun x => matchesTarget d tc x.category_id) d
        = coco_to_yolo_format tc single img lst d
  | [] => rfl
  | a :: rest => by
    have ih := coco_to_yolo_format_filter tc single img d rest
    by_cases hm : matchesTarget d tc a.category_id = true
    · have hf : List.filter (fun x => matchesTarget d tc x.category_id) (a :: rest)
          = a :: List.filter (fun x => matchesTarget d tc x.category_id) rest := by
        simp [List.filter_cons, hm]
      rw [hf]
      unfold coco_to_yolo_format at ih ⊢
      rw [List.filterMap_cons, List.filterMap_cons, ih]
    · have hf : List.filter (fun x => matchesTarget d tc x.category_id) (a :: rest)
          = List.filter (fun x => matchesTarget d tc x.category_id) rest := by
        simp only [Bool.not_eq_true] at hm
        simp [List.filter_cons, hm]
      rw [hf]
      unfold coco_to_yolo_format at ih ⊢
      rw [List.filterMap_cons]
      have hnone : (match categoryName d a.category_id with
          | some nm =>
              if tc.contains nm then some (yoloLineOf tc single img a nm)
              else none
          | none => none) = none := by
        unfold matchesTarget at hm
        cases hcn : categoryName d a.category_id with
        | none => rfl
        | some nm =>
          rw [hcn] at hm
          simp only [Bool.not_eq_true] at hm
          simp only [hm, Bool.false_eq_true, if_false]
      rw [hnone, ih]

/-- Claim C3: a matched annotation is emitted with class index equal to the
position of its category name in `target_classes` when `create_single_class`
is false, and with class index 0 when it is true; annotations whose category
name is not in `target_classes` are omitted — filtering them away leaves the
payload unchanged. -/
theorem c3_class_index_mapping (tc : List String) (single : Bool)
    (img : Image) (d : CocoData) (lst : List Ann) (a : Ann) (nm : String)
    (ha : a ∈ lst)
    (hnm : categoryName d a.category_id = some nm)
    (htc : tc.contains nm = true) :
    yoloLineOf tc single img a nm ∈ coco_to_yolo_format tc single img lst d ∧
    (single = false → (yoloLineOf tc single img a nm).cls = tc.indexOf nm) ∧
    (single = true → (yoloLineOf tc single img a nm).cls = 0) ∧
    coco_to_yolo_format tc single img
        (lst.filter fun x => matchesTarget d tc x.category_id) d
      = coco_to_yolo_format tc single img lst d := by
  refine ⟨?_, ?_, ?_, coco_to_yolo_format_filter tc single img d lst⟩
  · unfold coco_to_yolo_format
    exact List.mem_filterMap.mpr ⟨a, ha, by rw [hnm]; simpa using htc⟩
  · intro hs
    simp [yoloLineOf, hs]
  · intro hs
    simp [yoloLineOf, hs]

/-- Witness for C3 at a concrete input: the "cat" annotation among a "cat"
and a "dog" annotation, with `target_classes = ["cat"]`. -/
theorem c3_class_index_mapping_witness :
    yoloLineOf ["cat"] false exImg exAnn1 "cat"
      ∈ coco_to_yolo_format ["cat"] false exImg [exAnn1, exAnn2] exCatDog ∧
    (false = false →
      (yoloLineOf ["cat"] false exImg exAnn1 "cat").cls = ["cat"].indexOf "cat") ∧
    (false = true →
      (yoloLineOf ["cat"] false exImg exAnn1 "cat").cls = 0) ∧
    coco_to_yolo_format ["cat"] false exImg
        ([exAnn1, exAnn2].filter fun x => matchesTarget exCatDog ["cat"] x.category_id)
        exCatDog
      = coco_to_yolo_format ["cat"] false exImg [exAnn1, exAnn2] exCatDog :=
  c3_class_index_mapping ["cat"] false exImg exCatDog [exAnn1, exAnn2] exAnn1 "cat"
    (by decide) (by decide) (by decide)

/-- Claim C9: an annotation whose `category_id` matches no catalog category
resolves to `none` (no exception), fails the target test, contributes no YOLO
line, and is skipped by the target-id scan. -/
theorem c9_unknown_category_skipped (d : CocoData) (tc : List String)
    (a : Ann) (single : Bool) (img : Image) (lst : List Ann) (bp : ℚ)
    (num : ℕ) (rest : List Ann) (s : List Int)
    (h : categoryName d a.category_id = none) :
    matchesTarget d tc a.category_id = false ∧
    coco_to_yolo_format tc single img (a :: lst) d
      = coco_to_yolo_format tc single img lst d ∧
    extractIdsGo d tc bp true num (a :: rest) s
      = extractIdsGo d tc bp true num rest s := by
  have hm : matchesTarget d tc a.category_id = false := by
    unfold matchesTarget
    rw [h]
  refine ⟨hm, ?_, ?_⟩
  · unfold coco_to_yolo_format
    rw [List.filterMap_cons]
    simp [h]
  · have hstep : extractIdsGo d tc bp true num (a :: rest) s
        = if matchesTarget d tc a.category_id = true then
            (let s' := setInsert a.image_id s
             if (true : Bool) = false ∧ (num : ℚ) * bp < (s'.length : ℚ) then s'
             else extractIdsGo d tc bp true num rest s')
          else extractIdsGo d tc bp true num rest s := rfl
    rw [hstep, if_neg (by simp [hm])]

/-- Witness for C9 at a concrete input: an annotation with `category_id = 99`
in a catalog whose categories have ids 1 and 2. -/
theorem c9_unknown_category_skipped_witness :
    matchesTarget exCatDog ["cat"] (⟨1, 99, exBB⟩ : Ann).category_id = false ∧
    coco_to_yolo_format ["cat"] false exImg ((⟨1, 99, exBB⟩ : Ann) :: [exAnn1]) exCatDog
      = coco_to_yolo_format ["cat"] false exImg [exAnn1] exCatDog ∧
    extractIdsGo exCatDog ["cat"] 0 true 0 ((⟨1, 99, exBB⟩ : Ann) :: [exAnn1]) []
      = extractIdsGo exCatDog ["cat"] 0 true 0 [exAnn1] [] :=
  c9_unknown_category_skipped exCatDog ["cat"] ⟨1, 99, exBB⟩ false exImg [exAnn1]
    0 0 [exAnn1] [] (by decide)

/-- Counterexample to C2 as stated: with `target_classes = ["cat"]` and
`background_percentage = 1/2`, an image carrying both a "cat" and a "dog"
annotation is placed in the target set *and* in the background set — the two
sets are not disjoint. -/
theorem c2_counterexample :
    ¬ (∀ i ∈ targetSet exCatDog ["cat"] (1/2),
        i ∉ backgroundSet exCatDog ["cat"] (1/2)) := by
  intro hdisj
  have ht : (1 : Int) ∈ targetSet exCatDog ["cat"] (1/2) := by
    norm_num [targetSet, extract_images_id, extractIdsGo, matchesTarget,
      categoryName, setInsert, exCatDog, exAnn1, exAnn2, List.find?]
  have hb : (1 : Int) ∈ backgroundSet exCatDog ["cat"] (1/2) := by
    norm_num [backgroundSet, targetSet, extract_images_id, extractIdsGo,
      matchesTarget, categoryName, setInsert, exCatDog, exAnn1, exAnn2,
      List.find?]
    all_goals decide
  exact hdisj 1 ht hb

/-- Claim C2, amended: the target and background sets are disjoint provided
no image carries both a target and a non-target annotation (all annotations
of one image agree on the membership test); and when every selected id has an
image record, the images visited by the two materialization passes are
exactly the two sets. -/
theorem c2_partition_amended (tc : List String) (bp : ℚ) (d : CocoData)
    (hU : ∀ a ∈ d.anns, ∀ a' ∈ d.anns, a.image_id = a'.image_id →
        matchesTarget d tc a.category_id = matchesTarget d tc a'.category_id)
    (hR : ∀ i ∈ targetSet d tc bp ++ backgroundSet d tc bp,
        (d.images.find? (fun img => img.id == i)).isSome = true) :
    (∀ i ∈ targetSet d tc bp, i ∉ backgroundSet d tc bp) ∧
    visitedIds d (targetSet d tc bp) ++ visitedIds d (backgroundSet d tc bp)
      = targetSet d tc bp ++ backgroundSet d tc bp := by
  constructor
  · intro i hit hib
    have h1 := mem_extractIdsGo d tc bp true 0 d.anns [] i hit
    have h2 := mem_extractIdsGo d tc bp false (targetSet d tc bp).length
      d.anns [] i hib
    rcases h1 with h1 | ⟨a, ha, hai, ham⟩
    · exact absurd h1 (List.not_mem_nil i)
    rcases h2 with h2 | ⟨a', ha', hai', ham'⟩
    · exact absurd h2 (List.not_mem_nil i)
    have := hU a ha a' ha' (hai.trans hai'.symm)
    rw [ham, ham'] at this
    exact Bool.true_eq_false.mp this
  · have h1 : visitedIds d (targetSet d tc bp) = targetSet d tc bp :=
      List.filter_eq_self.mpr fun i hi => hR i (List.mem_append_left _ hi)
    have h2 : visitedIds d (backgroundSet d tc bp) = backgroundSet d tc bp :=
      List.filter_eq_self.mpr fun i hi => hR i (List.mem_append_right _ hi)
    rw [h1, h2]

/-- Witness for C2 (amended) at a concrete input: a single image carrying
only a "cat" annotation. -/
theorem c2_partition_amended_witness :
    (∀ i ∈ targetSet exCatOnly ["cat"] (1/2),
        i ∉ backgroundSet exCatOnly ["cat"] (1/2)) ∧
    visitedIds exCatOnly (targetSet exCatOnly ["cat"] (1/2))
        ++ visitedIds exCatOnly (backgroundSet exCatOnly ["cat"] (1/2))
      = targetSet exCatOnly ["cat"] (1/2)
        ++ backgroundSet exCatOnly ["cat"] (1/2) :=
  c2_partition_amended ["cat"] (1/2) exCatOnly (by decide) (by decide)

/-- Counterexample to C4 as stated: ten images containing "cat" and no
non-target annotation at all give a target set of 10 but an *empty*
background set, violating the claimed lower bound `0 < |background|`. -/
theorem c4_counterexample :
    (targetSet exTen ["cat"] (1/2)).length = 10 ∧
    (backgroundSet exTen ["cat"] (1/2)).length = 0 := by
  decide

/-- Claim C4, amended: with a single target class, `background_percentage =
0.5` and a target set of 10 images, *provided at least one annotation fails
the target test*, the early-exit background scan yields
`0 < |background| ≤ 6`. -/
theorem c4_background_bound (d : CocoData) (c : String)
    (h10 : (targetSet d [c] (1/2)).length = 10)
    (hex : ∃ a ∈ d.anns, matchesTarget d [c] a.category_id = false) :
    0 < (backgroundSet d [c] (1/2)).length ∧
    (backgroundSet d [c] (1/2)).length ≤ 6 := by
  have hbg : backgroundSet d [c] (1/2)
      = extractIdsGo d [c] (1/2) false 10 d.anns [] := by
    unfold backgroundSet extract_images_id
    rw [h10]
    simp
  constructor
  · rw [hbg]
    exact List.length_pos.mpr
      (extractIdsGo_ne_nil d [c] (1/2) false 10 d.anns [] hex)
  · rw [hbg]
    have hle := extractIdsGo_length_le d [c] (1/2) 10 d.anns []
      (by norm_num)
    have h6 : ((extractIdsGo d [c] (1/2) false 10 d.anns []).length : ℚ)
        ≤ 6 := by
      calc ((extractIdsGo d [c] (1/2) false 10 d.anns []).length : ℚ)
          ≤ (10 : ℚ) * (1/2) + 1 := hle
        _ ≤ 6 := by norm_num
    exact_mod_cast h6

/-- Witness for C4 (amended) at a concrete input: ten "cat" images plus one
"dog" annotation. -/
theorem c4_background_bound_witness :
    0 < (backgroundSet exTenDog ["cat"] (1/2)).length ∧
    (backgroundSet exTenDog ["cat"] (1/2)).length ≤ 6 :=
  c4_background_bound exTenDog "cat" (by decide) (by decide)

/-- Counterexample to C5 as stated (over *every* catalog): on a catalog with
no categories and an absent `single_class_name`, the source evaluates
`max(...)` on an empty generator, which raises `ValueError` (modelled as
`none`) — no synthetic category is ever added. -/
theorem c5_counterexample :
    create_new_class "new_class" (⟨[], [], []⟩ : CocoData) = none :=
  rfl

/-- Claim C5, amended: on a catalog with at least one category,
`create_new_class` succeeds and is idempotent — running it again returns the
same catalog.  When no category carries `single_class_name`, exactly one
category is appended, with id `max existing id + 1`; when one already exists,
nothing is appended. -/
theorem c5_idempotent_injection (n : String) (d : CocoData)
    (h : d.categories ≠ []) :
    ∃ d', create_new_class n d = some d' ∧
      create_new_class n d' = some d' ∧
      ((∀ c ∈ d.categories, c.name ≠ n) →
        ∃ m, (d.categories.map Category.id).max? = some m ∧
          d'.categories = d.categories ++ [⟨m + 1, n, n⟩]) ∧
      ((∃ c ∈ d.categories, c.name = n) → d' = d) := by
  cases hf : d.categories.find? (fun c => c.name == n) with
  | some c =>
    refine ⟨d, ?_, ?_, ?_, fun _ => rfl⟩
    · unfold create_new_class
      rw [hf]
    · unfold create_new_class
      rw [hf]
    · intro habs
      have hc := List.find?_some hf
      have hmem := List.mem_of_find?_eq_some hf
      exact absurd (by simpa using hc) (habs c hmem)
  | none =>
    cases hm : (d.categories.map Category.id).max? with
    | none =>
      exfalso
      cases hcat : d.categories with
      | nil => exact h hcat
      | cons c0 cs =>
        rw [hcat] at hm
        simp [List.max?] at hm
    | some m =>
      refine ⟨{ d with categories := d.categories ++ [⟨m + 1, n, n⟩] },
        ?_, ?_, fun _ => ⟨m, rfl, rfl⟩, ?_⟩
      · unfold create_new_class
        rw [hf, hm]
      · unfold create_new_class
        have hfind : (d.categories ++ [(⟨m + 1, n, n⟩ : Category)]).find?
            (fun c => c.name == n) = some ⟨m + 1, n, n⟩ := by
          rw [List.find?_append, hf]
          simp
        rw [hfind]
      · rintro ⟨c, hcmem, hcname⟩
        have := List.find?_eq_none.mp hf c hcmem
        simp [hcname] at this

/-- Witness for C5 at a concrete input: injecting `"new_class"` into a
catalog holding only the "cat" category. -/
theorem c5_idempotent_injection_witness :
    ∃ d', create_new_class "new_class" exCatOnly = some d' ∧
      create_new_class "new_class" d' = some d' ∧
      ((∀ c ∈ exCatOnly.categories, c.name ≠ "new_class") →
        ∃ m, (exCatOnly.categories.map Category.id).max? = some m ∧
          d'.categories = exCatOnly.categories ++ [⟨m + 1, "new_class", "new_class"⟩]) ∧
      ((∃ c ∈ exCatOnly.categories, c.name = "new_class") → d' = exCatOnly) :=
  c5_idempotent_injection "new_class" exCatOnly (by decide)

theorem mem_foldl_setInsert {α : Type} [DecidableEq α] :
    ∀ (l acc : List α) (x : α),
      x ∈ l.foldl (fun s y => setInsert y s) acc ↔ x ∈ acc ∨ x ∈ l
  | [], acc, x => by simp
  | a :: rest, acc, x => by
    rw [List.foldl_cons, mem_foldl_setInsert rest (setInsert a acc) x,
      mem_setInsert]
    simp only [List.mem_cons]
    tauto

/-- Membership in a Python `set(xs)` is membership in `xs`. -/
theorem mem_pySetOfList {α : Type} [DecidableEq α] (l : List α) (x : α) :
    x ∈ pySetOfList l ↔ x ∈ l := by
  unfold pySetOfList
  rw [mem_foldl_setInsert]
  simp

/-- Counterexample to C6 as stated: with `target_classes = []` and YOLO mode,
a well-formed "cat" annotation is *not* retained — the label payload is empty
because membership in the empty target list never holds. -/
theorem c6_counterexample :
    categoryName exCatDog exAnn1.category_id = some "cat" ∧
    (coco_to_yolo_format [] false exImg [exAnn1] exCatDog).length = 0 ∧
    ([exAnn1] : List Ann).length = 1 := by
  decide

/-- Claim C6, amended: when `target_classes` is empty, every image id of the
split is selected, the background set is empty regardless of
`background_percentage`, and in YOLO mode *every annotation is omitted* (the
label payload is empty) rather than passed through. -/
theorem c6_empty_target_classes (tc : List String) (bp : ℚ) (d : CocoData)
    (single : Bool) (img : Image) (lst : List Ann) (i : Int)
    (h : tc = []) :
    (i ∈ (selectSets tc bp d).1 ↔ i ∈ d.images.map Image.id) ∧
    (selectSets tc bp d).2 = [] ∧
    coco_to_yolo_format tc single img lst d = [] := by
  subst h
  refine ⟨?_, ?_, ?_⟩
  · have hsel : (selectSets [] bp d).1 = pySetOfList (d.images.map Image.id) := by
      unfold selectSets extract_images_id
      simp
    rw [hsel, mem_pySetOfList]
  · unfold selectSets
    simp
  · unfold coco_to_yolo_format
    induction lst with
    | nil => rfl
    | cons a rest ih =>
      rw [List.filterMap_cons]
      cases hcn : categoryName d a.category_id with
      | none => simpa using ih
      | some nm => simpa using ih

/-- Witness for C6 (amended) at a concrete input. -/
theorem c6_empty_target_classes_witness :
    ((1 : Int) ∈ (selectSets [] (1/2) exCatDog).1 ↔
      (1 : Int) ∈ exCatDog.images.map Image.id) ∧
    (selectSets [] (1/2) exCatDog).2 = [] ∧
    coco_to_yolo_format [] false exImg [exAnn1, exAnn2] exCatDog = [] :=
  c6_empty_target_classes [] (1/2) exCatDog false exImg [exAnn1, exAnn2] 1 rfl

/-- Claim C7 (code bug): when `test_only_target_classes` is set and the test
annotation file is absent, the source prints a report but then raises
`UnboundLocalError` (the loop reads the never-assigned
`test_images_to_extract`), so the run terminates abnormally instead of
skipping the test split. -/
theorem c7_missing_test_file_crashes (tc : List String) (bp : ℚ)
    (dirListing : List String) :
    selectTestImages true tc bp none dirListing
      = TestExtract.unboundLocalError :=
  rfl

theorem convertImagesRecord_eq (d : CocoData) (ty : String) :
    ∀ (ids : List Int) (acc : List String),
      convertImagesRecord d ty ids acc
        = acc ++ ids.filterMap (fun i =>
            (d.images.find? (fun img => img.id == i)).map
              (fun img => pathJoin [ty, "images", img.file_name]))
  | [], acc => by simp [convertImagesRecord]
  | i :: rest, acc => by
    unfold convertImagesRecord
    cases hfi : d.images.find? (fun img => img.id == i) with
    | some img =>
      dsimp only
      rw [convertImagesRecord_eq d ty rest
        (acc ++ [pathJoin [ty, "images", img.file_name]])]
      simp [List.filterMap_cons, hfi]
    | none =>
      dsimp only
      rw [convertImagesRecord_eq d ty rest acc]
      simp [List.filterMap_cons, hfi]

theorem testImagesRecord_eq (out : String) :
    ∀ (files acc : List String),
      testImagesRecord out files acc
        = acc ++ files.map (fun f => pathJoin [out, "test", "images", f])
  | [], acc => by simp [testImagesRecord]
  | f :: rest, acc => by
    unfold testImagesRecord
    rw [testImagesRecord_eq out rest (acc ++ [pathJoin [out, "test", "images", f]])]
    simp

/-- Counterexample to C8 as stated: the test-split manifest entry for
`a.jpg` with `output_dir = "new_dataset"` is the `output_dir`-prefixed path,
not the output-relative path `test/images/a.jpg`. -/
theorem c8_counterexample :
    splitManifest (testImagesRecord "new_dataset" ["a.jpg"] [])
      = "new_dataset/test/images/a.jpg" ∧
    splitManifest (testImagesRecord "new_dataset" ["a.jpg"] [])
      ≠ splitManifest [pathJoin ["test", "images", "a.jpg"]] := by
  decide

/-- Claim C8, amended: for train/valid splits the manifest is the
newline-join of the output-relative paths `<split>/images/<file_name>`, one
per materialized image in iteration order; for the test split each entry is
additionally prefixed with `output_dir`. -/
theorem c8_manifest_layout (d : CocoData) (ty out : String) (ids : List Int)
    (files : List String) :
    splitManifest (convertImagesRecord d ty ids [])
      = String.intercalate "\n" (ids.filterMap (fun i =>
          (d.images.find? (fun img => img.id == i)).map
            (fun img => pathJoin [ty, "images", img.file_name]))) ∧
    splitManifest (testImagesRecord out files [])
      = String.intercalate "\n"
          (files.map (fun f => pathJoin [out, "test", "images", f])) := by
  constructor
  · rw [convertImagesRecord_eq]
    rfl
  · rw [testImagesRecord_eq]
    rfl

/-- Claim C10: image selection is deterministic — both extraction routines
are functions of exactly the annotation data, target classes, background
percentage and target-set count, so two runs on equal inputs return equal
result sets (randomness enters the source only through the optional
`random.sample` on `test_num_images`, outside these routines). -/
theorem c10_selection_deterministic (d₁ d₂ : CocoData)
    (tc₁ tc₂ : List String) (bp₁ bp₂ : ℚ) (et : Bool) (num₁ num₂ : ℕ)
    (ea : Bool)
    (h1 : d₁ = d₂) (h2 : tc₁ = tc₂) (h3 : bp₁ = bp₂) (h4 : num₁ = num₂) :
    extract_images_id d₁ tc₁ bp₁ et num₁ ea
      = extract_images_id d₂ tc₂ bp₂ et num₂ ea ∧
    extract_images_filename d₁ tc₁ bp₁ et num₁ ea
      = extract_images_filename d₂ tc₂ bp₂ et num₂ ea := by
  subst h1; subst h2; subst h3; subst h4
  exact ⟨rfl, rfl⟩

/-- Witness for C10 at a concrete input. -/
theorem c10_selection_deterministic_witness :
    extract_images_id exCatDog ["cat"] (1/2) true 0 false
      = extract_images_id exCatDog ["cat"] (1/2) true 0 false ∧
    extract_images_filename exCatDog ["cat"] (1/2) true 0 false
      = extract_images_filename exCatDog ["cat"] (1/2) true 0 false :=
  c10_selection_deterministic exCatDog exCatDog ["cat"] ["cat"] (1/2) (1/2)
    true 0 0 false rfl rfl rfl rfl

end Coco
